import Mathlib

/-!
Shallow embedding of the PL-Daily-Lambda data-collection pipeline
(`src/polygon_client.py`, `src/service.py`, `src/redis_cache.py`,
`src/config.py`) together with proofs of the behavioural claims about it.

Modelling conventions, stated once here:
* Python `float` values carry no arithmetic in this code base (they are
  extracted, stored and serialized, never combined), so numbers are
  modelled by `ℚ`.  Non-finite floats (`inf`, `nan`) and underscore
  digit separators are outside the numeric model; no property below
  depends on them.
* Python dictionaries are modelled as association lists with
  first-match lookup; `dict.get` of a missing key yields `PyVal.none`.
* `str.strip`, `str.upper` and `str.split` are re-implemented over
  `List Char` (ASCII case mapping, the four ASCII whitespace
  characters) because the claims only exercise them on ASCII data.
* HTTP transport is abstracted by response-valued functions stored in
  a `RunEnv`; transport failures are not modelled because no claim
  below is about them.  Aggregation of snapshot chunks happens in
  completion order in the source; the model aggregates in submission
  order, which no claim below distinguishes.
-/

set_option linter.unusedVariables false

/-- Values of the dynamically typed JSON/Python universe that the
pipeline manipulates: `None`, booleans, numbers (int or float,
modelled as `ℚ`), strings, dictionaries and lists. -/
inductive PyVal where
  | none : PyVal
  | bool (b : Bool) : PyVal
  | num (q : ℚ) : PyVal
  | str (s : String) : PyVal
  | dict (fields : List (String × PyVal)) : PyVal
  | list (xs : List PyVal) : PyVal

/-- A raw snapshot record (one element of the `tickers` list of a
snapshot response): a Python dictionary. -/
abbrev Snap := List (String × PyVal)

/-- Python `d.get(key)` on a dictionary: the first binding of `key`,
or `None` when the key is absent. -/
def dictGet : List (String × PyVal) → String → PyVal
  | [], _ => PyVal.none
  | (k, v) :: rest, key => if k = key then v else dictGet rest key

/-- The four ASCII whitespace characters, the ones `str.strip()` with
no argument removes on the data exercised here. -/
def pyIsSpace (c : Char) : Bool :=
  c = ' ' || c = '\t' || c = '\n' || c = '\r'

/-- Python `s.strip()` (ASCII whitespace model): drop whitespace from
both ends. -/
def pyStrip (s : String) : String :=
  String.mk (((s.data.dropWhile pyIsSpace).reverse.dropWhile pyIsSpace).reverse)

/-- Python `s.upper()` (ASCII model): uppercase every character. -/
def pyUpper (s : String) : String :=
  String.mk (s.data.map Char.toUpper)

/-- Split a character list at every occurrence of `sep`; the result
always has one more group than there are separators (mirrors Python
`str.split(sep)`). -/
def splitOnChar (sep : Char) : List Char → List (List Char)
  | [] => [[]]
  | c :: rest =>
    match splitOnChar sep rest with
    | [] => [[c]]
    | g :: gs => if c = sep then [] :: g :: gs else (c :: g) :: gs

/-- Value of a digit string (most significant first); the empty string
counts as `0`, as needed for the two halves of `"1."` / `".5"`. -/
def digitsVal (cs : List Char) : Nat :=
  cs.foldl (fun n c => 10 * n + (c.toNat - 48)) 0

/-- Parse the mantissa part of a Python float literal: `digits`,
`digits.digits`, `digits.` or `.digits`. -/
def parseMantissa (cs : List Char) : Option ℚ :=
  match splitOnChar '.' cs with
  | [ip] =>
    if ip ≠ [] ∧ ip.all Char.isDigit then some (digitsVal ip) else Option.none
  | [ip, fp] =>
    if (ip ≠ [] ∨ fp ≠ []) ∧ ip.all Char.isDigit ∧ fp.all Char.isDigit then
      some ((digitsVal ip : ℚ) + (digitsVal fp : ℚ) / (10 ^ fp.length))
    else Option.none
  | _ => Option.none

/-- Strip one optional leading sign, returning the sign as `1` or `-1`. -/
def parseSign (cs : List Char) : ℚ × List Char :=
  match cs with
  | '-' :: rest => (-1, rest)
  | '+' :: rest => (1, rest)
  | _ => (1, cs)

/-- Parse the exponent part of a Python float literal: optional sign
then a nonempty digit string. -/
def parseExponent (cs : List Char) : Option ℤ :=
  let (sg, rest) := parseSign cs
  if rest ≠ [] ∧ rest.all Char.isDigit then
    some ((if sg = 1 then 1 else -1) * (digitsVal rest : ℤ))
  else Option.none

/-- Python `float(s)` on a string (finite decimal literals: optional
surrounding whitespace, optional sign, mantissa, optional `e`/`E`
exponent); `Option.none` models the `ValueError` that `_to_float`
catches. -/
def pyFloatOfString (s : String) : Option ℚ :=
  let body := (pyStrip s).data.map (fun c => if c = 'E' then 'e' else c)
  let (sg, body) := parseSign body
  match splitOnChar 'e' body with
  | [m] => (parseMantissa m).map (fun q => sg * q)
  | [m, e] =>
    match parseMantissa m, parseExponent e with
    | some mv, some ev => some (sg * mv * (10 : ℚ) ^ ev)
    | _, _ => Option.none
  | _ => Option.none

/-- Embedding of `service._to_float`: `try: return float(value)
except (TypeError, ValueError): return None`.  `float` succeeds on
numbers, booleans (`True → 1.0`, `False → 0.0`) and numeric strings;
everything else raises and is collapsed to `None`. -/
def to_float : PyVal → Option ℚ
  | PyVal.num q => some q
  | PyVal.bool b => some (if b then 1 else 0)
  | PyVal.str s => pyFloatOfString s
  | _ => Option.none

/-- Embedding of the frozen dataclass `service.TickerPL`. -/
structure TickerPL where
  ticker : String
  daily_pl : Option ℚ
  daily_pl_percent : Option ℚ
  min_close : Option ℚ
  date : String
deriving DecidableEq

/-- One iteration of the derivation loop in `service.collect_daily_pl`
(lines 72-92): `None` when the record is skipped (`continue`), the
constructed `TickerPL` otherwise. -/
def deriveOne (asOf : String) (snap : Snap) : Option TickerPL :=
  match dictGet snap "ticker" with
  | PyVal.str t =>
    if t = "" then Option.none
    else
      some { ticker := pyUpper t
             daily_pl := to_float (dictGet snap "todaysChange")
             daily_pl_percent := to_float (dictGet snap "todaysChangePerc")
             min_close :=
               match dictGet snap "min" with
               | PyVal.dict m => to_float (dictGet m "c")
               | _ => Option.none
             date := asOf }
  | _ => Option.none

/-- The derivation loop of `service.collect_daily_pl` itself: walk the
snapshot list in order, skip records whose `ticker` field is missing,
empty or not a string, append one `TickerPL` for every other record. -/
def derivePL (asOf : String) : List Snap → List TickerPL
  | [] => []
  | snap :: rest =>
    match dictGet snap "ticker" with
    | PyVal.str t =>
      if t = "" then derivePL asOf rest
      else
        { ticker := pyUpper t
          daily_pl := to_float (dictGet snap "todaysChange")
          daily_pl_percent := to_float (dictGet snap "todaysChangePerc")
          min_close :=
            match dictGet snap "min" with
            | PyVal.dict m => to_float (dictGet m "c")
            | _ => Option.none
          date := asOf } :: derivePL asOf rest
    | _ => derivePL asOf rest

/-- Length of Python `range(start, stop, step)` for a positive step:
the formula CPython uses, `(stop - start + step - 1) // step`
(clamped at zero by natural subtraction). -/
def pyRangeLen (start stop step : Nat) : Nat :=
  (stop - start + step - 1) / step

/-- Embedding of `_chunked` (identical in `polygon_client.py` and
`redis_cache.py`): `for idx in range(0, len(items), chunk_size):
yield items[idx : idx + chunk_size]`.  Only meaningful for a positive
`chunk_size`; both call sites clamp with `max(1, _)` first (Python
raises on a zero step). -/
def chunked (items : List α) (chunk_size : Nat) : List (List α) :=
  (List.range' 0 (pyRangeLen 0 items.length chunk_size) chunk_size).map
    (fun idx => (items.drop idx).take chunk_size)

/-- Python `max(1, z)` on a possibly zero or negative integer
configuration value, as used for `batch_size`, `concurrency` and
`redis_pipeline_size`, followed by the cast into `ℕ` (the result is
always positive). -/
def pyMax1 (z : Int) : Nat :=
  (max 1 z).toNat

/-- The normalization pass of `fetch_market_snapshots` (line 106):
`[ticker.strip().upper() for ticker in tickers if ticker.strip()]`. -/
def normalizeTickers (tickers : List String) : List String :=
  tickers.filterMap (fun t =>
    if pyStrip t = "" then Option.none else some (pyUpper (pyStrip t)))

/-- Failure classes raised by the embedded pipeline, one constructor
per Python exception type that can cross the functions modelled
here. -/
inductive PyErr where
  | valueError : PyErr
  | zoneInfoNotFound : PyErr
  | polygonApi : PyErr
  | redisCache : PyErr

/-- Observable outcome of `fetch_market_snapshots`: the chunk
requests issued (each the ticker list of one HTTP call, in submission
order) and the aggregated raw records. -/
structure FetchOutcome where
  requests : List (List String)
  results : List Snap

/-- Embedding of `polygon_client.fetch_market_snapshots` (lines
88-149): reject an empty API key (`ValueError`), normalize the
tickers, return early with no request when nothing is left, otherwise
issue one request per chunk of `max(1, batch_size)` tickers and
aggregate the responses.  `respond` abstracts the HTTP transport
(successful responses only); aggregation is modelled in submission
order, see the header comment. -/
def fetchMarketSnapshots (respond : List String → List Snap) (apiKey : String)
    (tickers : List String) (include_otc : Bool) (batch_size : Int) :
    Except PyErr FetchOutcome :=
  if apiKey = "" then Except.error PyErr.valueError
  else
    let ts := normalizeTickers tickers
    if ts = [] then Except.ok ⟨[], []⟩
    else
      let chunks := chunked ts (pyMax1 batch_size)
      Except.ok ⟨chunks, chunks.flatMap respond⟩

/-- Key validity for the Python standard library `zoneinfo` lookup
(external collaborator, modelled from its documented behaviour):
`ZoneInfo(key)` raises `ValueError`, not `ZoneInfoNotFoundError`,
when the key is an absolute path or contains a `..` path segment. -/
def zoneInfoInvalidKey (key : String) : Bool :=
  (match key.data with | '/' :: _ => true | _ => false) ||
    (splitOnChar '/' key.data).contains ['.', '.']

/-- The Python standard library `ZoneInfo(key)` constructor (external
collaborator): `ValueError` on an invalid key, `ZoneInfoNotFoundError`
when the valid key is not in the zone database `tzdb`, otherwise the
zone (represented by its name). -/
def zoneInfo (tzdb : List String) (key : String) : Except PyErr String :=
  if zoneInfoInvalidKey key then Except.error PyErr.valueError
  else if key ∈ tzdb then Except.ok key
  else Except.error PyErr.zoneInfoNotFound

/-- Embedding of the zone-resolution block in `collect_daily_pl`
(lines 39-43): `try: tz = ZoneInfo(config.pl_timezone) except
ZoneInfoNotFoundError: LOGGER.warning(...); tz =
ZoneInfo("America/New_York")`.  The boolean records whether the
warning diagnostic was emitted. -/
def resolveTz (tzdb : List String) (name : String) : Except PyErr (String × Bool) :=
  match zoneInfo tzdb name with
  | Except.ok z => Except.ok (z, false)
  | Except.error PyErr.zoneInfoNotFound =>
    (zoneInfo tzdb "America/New_York").map (fun z => (z, true))
  | Except.error e => Except.error e

/-- Embedding of `config.AppConfig`.  Integer-valued sizes are `ℤ`
(Python ints); `ticker_limit`, `redis_ttl_seconds` are positive when
present (`get_config` drops other values); the two HTTP timeout
floats are irrelevant to every claim and carried as `ℚ`. -/
structure AppConfig where
  api_key : String
  include_otc : Bool
  ticker_batch_size : Int
  snapshot_concurrency : Int
  http_timeout : ℚ
  http_read_timeout : ℚ
  ticker_limit : Option Nat
  redis_url : Option String
  redis_token : Option String
  redis_pipeline_size : Int
  redis_key_prefix : String
  redis_ttl_seconds : Option Int
  pl_timezone : String

/-- External world of one run: the zone database, the wall clock
(year, month, day as observed in a given zone at the start of the
run), the reference-API pages and the snapshot responses. -/
structure RunEnv where
  tzdb : List String
  today : String → Nat × Nat × Nat
  pages : List (List Snap)
  respond : List String → List Snap

/-- Zero-padded two-digit rendering, as in `strftime` `%m` / `%d`. -/
def pad2 (n : Nat) : String :=
  if n < 10 then "0" ++ toString n else toString n

/-- Zero-padded four-digit rendering, as in `strftime` `%Y`. -/
def pad4 (n : Nat) : String :=
  if n < 10 then "000" ++ toString n
  else if n < 100 then "00" ++ toString n
  else if n < 1000 then "0" ++ toString n
  else toString n

/-- `datetime.now(tz).strftime("%Y-%m-%d")` applied to an already
computed calendar date. -/
def strftimeYMD (d : Nat × Nat × Nat) : String :=
  pad4 d.1 ++ "-" ++ pad2 d.2.1 ++ "-" ++ pad2 d.2.2

/-- The per-page symbol extraction of
`fetch_all_active_stock_tickers` (lines 64-68): keep `item.get("ticker")`
when it is a non-empty string, uppercased, in page order.  Pagination
mechanics (cursor handling, credential duplication) are abstracted
into the page list itself. -/
def discoverTickers (pages : List (List Snap)) : List String :=
  pages.flatten.filterMap (fun item =>
    match dictGet item "ticker" with
    | PyVal.str t => if t = "" then Option.none else some (pyUpper t)
    | _ => Option.none)

/-- Embedding of `fetch_all_active_stock_tickers` (lines 21-85):
reject an empty API key, otherwise return the extracted symbols of
all pages. -/
def fetch_all_active_stock_tickers (env : RunEnv) (apiKey : String) :
    Except PyErr (List String) :=
  if apiKey = "" then Except.error PyErr.valueError
  else Except.ok (discoverTickers env.pages)

/-- Embedding of `service.collect_daily_pl` (lines 37-95): resolve the
zone (with the New-York fallback), stamp the run date, discover,
truncate to `ticker_limit`, fetch snapshots, derive the `TickerPL`
list. -/
def collectDailyPL (env : RunEnv) (cfg : AppConfig) : Except PyErr (List TickerPL) :=
  match resolveTz env.tzdb (AppConfig.pl_timezone cfg) with
  | Except.error e => Except.error e
  | Except.ok (tz, _warned) =>
    let asOf := strftimeYMD (env.today tz)
    match fetch_all_active_stock_tickers env (AppConfig.api_key cfg) with
    | Except.error e => Except.error e
    | Except.ok discovered =>
      let tickers :=
        match AppConfig.ticker_limit cfg with
        | some l => discovered.take l
        | Option.none => discovered
      match fetchMarketSnapshots env.respond (AppConfig.api_key cfg) tickers
          (AppConfig.include_otc cfg) (AppConfig.ticker_batch_size cfg) with
      | Except.error e => Except.error e
      | Except.ok out => Except.ok (derivePL asOf out.results)

/-- The date string every entry of a run is stamped with (the value
`as_of` computed at line 44 of `service.py`), exposed for the
shared-date claim; the empty string stands for the runs that fail
before computing it. -/
def runAsOf (env : RunEnv) (cfg : AppConfig) : String :=
  match resolveTz env.tzdb (AppConfig.pl_timezone cfg) with
  | Except.ok (tz, _) => strftimeYMD (env.today tz)
  | Except.error _ => ""

/-- Python truthiness of an optional string (`not config.redis_url`):
falsy when absent or empty. -/
def strFalsy : Option String → Bool
  | Option.none => true
  | some s => s = ""

/-- Rendering of an optional number inside the JSON payload: `null`
when absent.  The numeral text of a present value is a deterministic
function of the value; the exact digits Python would print are
irrelevant to every claim. -/
def renderNum : Option ℚ → String
  | Option.none => "null"
  | some q => toString q

/-- Embedding of `json.dumps(ticker_pl.to_dict(), separators=...)`:
the compact JSON object with the five dataclass fields in declaration
order (string escaping elided; the claims never put quotes or
backslashes in tickers or dates). -/
def serializeEntry (e : TickerPL) : String :=
  "\x7b\"ticker\":\"" ++ e.ticker ++ "\",\"daily_pl\":" ++ renderNum e.daily_pl ++
    ",\"daily_pl_percent\":" ++ renderNum e.daily_pl_percent ++
    ",\"min_close\":" ++ renderNum e.min_close ++
    ",\"date\":\"" ++ e.date ++ "\"\x7d"

/-- The Redis key written for one entry: `f"{config.redis_key_prefix}:{ticker_pl.ticker}"`
(line 54 of `redis_cache.py`). -/
def entryKey (cfg : AppConfig) (e : TickerPL) : String :=
  AppConfig.redis_key_prefix cfg ++ ":" ++ e.ticker

/-- The command-list construction loop for one batch
(`redis_cache.py` lines 52-60): per entry a `SET` command, followed by
an `EXPIRE` command exactly when `redis_ttl_seconds` is configured. -/
def batchCommands (cfg : AppConfig) (batch : List TickerPL) : List (List String) :=
  batch.foldl
    (fun commands ticker_pl =>
      let commands := commands ++ [["SET", entryKey cfg ticker_pl, serializeEntry ticker_pl]]
      match AppConfig.redis_ttl_seconds cfg with
      | some ttl => commands ++ [["EXPIRE", entryKey cfg ticker_pl, toString ttl]]
      | Option.none => commands)
    []

/-- Embedding of `redis_cache.push_daily_pl_to_redis` (lines 24-73),
observed through the pipeline requests it posts: nothing when the
endpoint or credential is unset or the entry list is empty, otherwise
one request (a command list) per chunk of `max(1,
redis_pipeline_size)` entries, in order. -/
def pushDailyPLRequests (cfg : AppConfig) (entries : List TickerPL) :
    List (List (List String)) :=
  if strFalsy (AppConfig.redis_url cfg) || strFalsy (AppConfig.redis_token cfg) then []
  else if entries = [] then []
  else
    (chunked entries (pyMax1 (AppConfig.redis_pipeline_size cfg))).map
      (batchCommands cfg)

/-- State of the downstream cache: each key holds a value string and
an optional pending expiry. -/
def CacheState := String → Option (String × Option String)

/-- Semantics of one pipelined Redis command: `SET` stores the value
(and, as in Redis, discards any previous expiry); `EXPIRE` attaches an
expiry to an existing key and does nothing otherwise; anything else is
a no-op. -/
def applyCmd (st : CacheState) (cmd : List String) : CacheState :=
  match cmd with
  | ["SET", k, v] => fun q => if q = k then some (v, Option.none) else st q
  | ["EXPIRE", k, t] => fun q =>
      if q = k then
        match st k with
        | some (v, _) => some (v, some t)
        | Option.none => Option.none
      else st q
  | _ => st

/-- Execute a command list in submitted order (the contract of the
pipeline endpoint). -/
def applyCmds (st : CacheState) (cmds : List (List String)) : CacheState :=
  cmds.foldl applyCmd st

/-- Final cache state after one `push_daily_pl_to_redis` call: the
issued pipeline requests applied in order. -/
def publishEffect (cfg : AppConfig) (entries : List TickerPL) (st : CacheState) :
    CacheState :=
  (pushDailyPLRequests cfg entries).foldl applyCmds st

/-- Lifecycle of one chunk task of `fetch_market_snapshots` with
respect to the semaphore: still waiting, holding the semaphore
with its request in flight (lines 127-128), or finished. -/
inductive ChunkPhase where
  | pending : ChunkPhase
  | inflight : ChunkPhase
  | done : ChunkPhase
deriving DecidableEq, BEq

/-- Number of chunk requests currently in flight. -/
def inflightCount (ts : List ChunkPhase) : Nat :=
  ts.countP (fun t => t == ChunkPhase.inflight)

/-- Interleaving semantics of the fan-out in `fetch_market_snapshots`:
a step either lets a pending task pass the semaphore — possible
only while fewer than `cap` requests are in flight — or completes an
in-flight request, releasing its slot.  This is the semantics of
`asyncio.Semaphore(cap)` around the `client.get` call. -/
inductive SemStep (cap : Nat) : List ChunkPhase → List ChunkPhase → Prop where
  | acquire (ts : List ChunkPhase) (i : Nat) (h : ts[i]? = some ChunkPhase.pending)
      (hcap : inflightCount ts < cap) :
      SemStep cap ts (ts.set i ChunkPhase.inflight)
  | release (ts : List ChunkPhase) (i : Nat) (h : ts[i]? = some ChunkPhase.inflight) :
      SemStep cap ts (ts.set i ChunkPhase.done)

/-- Task states reachable from the initial submission of all chunk
tasks (`asyncio.create_task` per chunk, all pending). -/
def SemReachable (cap : Nat) (n : Nat) (ts : List ChunkPhase) : Prop :=
  Relation.ReflTransGen (SemStep cap) (List.replicate n ChunkPhase.pending) ts

/-- The commands the publishing loop appends for one entry: its `SET`
command, followed by an `EXPIRE` command exactly when a TTL is
configured (the loop body of `redis_cache.py` lines 53-60, per
entry). -/
def entryCmds (cfg : AppConfig) (e : TickerPL) : List (List String) :=
  ["SET", entryKey cfg e, serializeEntry e] ::
    (match AppConfig.redis_ttl_seconds cfg with
     | some ttl => [["EXPIRE", entryKey cfg e, toString ttl]]
     | Option.none => [])

/-- Net effect of one entry's commands on the cache: its key now holds
the serialized record, with the configured expiry attached when a TTL
is set. -/
def setEntry (cfg : AppConfig) (st : CacheState) (e : TickerPL) : CacheState :=
  fun q =>
    if q = entryKey cfg e then
      some (serializeEntry e, (AppConfig.redis_ttl_seconds cfg).map toString)
    else st q

/-- A transport stub for witnesses: every chunk request answers with
no records. -/
def respondEmpty : List String → List Snap := fun _ => []

/-- A concrete configuration used by the witnesses below. -/
def cfgW : AppConfig where
  api_key := "key"
  include_otc := false
  ticker_batch_size := 500
  snapshot_concurrency := 5
  http_timeout := 20
  http_read_timeout := 60
  ticker_limit := Option.none
  redis_url := some "https://cache.example.upstash.io"
  redis_token := some "token"
  redis_pipeline_size := 2
  redis_key_prefix := "stock:pl_daily"
  redis_ttl_seconds := some 60
  pl_timezone := "America/New_York"

/-- The witness configuration with an unresolvable (but well-formed)
zone name. -/
def cfgNoTz : AppConfig := { cfgW with pl_timezone := "Mars/Olympus" }

/-- The counterexample configuration: a zone name that is rejected as
invalid (`ValueError`) rather than merely not found. -/
def cfgBadTz : AppConfig := { cfgW with pl_timezone := ".." }

/-- The witness configuration for the semaphore bound: chunks of one
ticker, two permits. -/
def cfgSem : AppConfig := { cfgW with ticker_batch_size := 1, snapshot_concurrency := 2 }

/-- A concrete external world used by the witnesses below. -/
def envW : RunEnv where
  tzdb := ["America/New_York", "UTC"]
  today := fun _ => (2026, 1, 2)
  pages := [[[("ticker", PyVal.str "aapl")], [("ticker", PyVal.str "msft")]]]
  respond := fun chunk =>
    chunk.map (fun t => [("ticker", PyVal.str t), ("todaysChange", PyVal.num 1)])

/-- Three concrete entries for the publisher witnesses. -/
def entsW : List TickerPL :=
  [⟨"AAPL", some (123/100), Option.none, some (1505/10), "2026-01-02"⟩,
    ⟨"MSFT", some 2, some (1/2), Option.none, "2026-01-02"⟩,
    ⟨"NVDA", Option.none, Option.none, Option.none, "2026-01-02"⟩]

lemma map_range'_shift (f : Nat → β) (b m : Nat) :
    ∀ s, (List.range' (s + b) m b).map f = (List.range' s m b).map (fun i => f (i + b)) := by
  induction m with
  | zero => intro s; simp
  | succ m ih =>
    intro s
    rw [List.range'_succ, List.range'_succ]
    simp only [List.map_cons]
    rw [ih (s + b)]

lemma chunked_nil (b : Nat) (hb : 1 ≤ b) : chunked ([] : List α) b = [] := by
  have h : pyRangeLen 0 0 b = 0 := by
    unfold pyRangeLen
    exact Nat.div_eq_of_lt (by omega)
  simp [chunked, h]

lemma chunked_cons (b : Nat) (hb : 1 ≤ b) (items : List α) (h : items ≠ []) :
    chunked items b = items.take b :: chunked (items.drop b) b := by
  have hn : 1 ≤ items.length := List.length_pos.mpr h
  have hlen : pyRangeLen 0 items.length b = pyRangeLen 0 (items.drop b).length b + 1 := by
    unfold pyRangeLen
    rw [List.length_drop]
    simp only [Nat.sub_zero]
    rcases Nat.lt_or_ge items.length b with hlt | hge
    · have h1 : items.length - b = 0 := by omega
      rw [h1]
      have h2 : (0 + b - 1) / b = 0 := Nat.div_eq_of_lt (by omega)
      rw [h2]
      have h3 : (items.length + b - 1) / b = 1 := by
        apply Nat.div_eq_of_lt_le <;> omega
      omega
    · have h1 : items.length - b + b - 1 = items.length - 1 := by omega
      have h2 : items.length + b - 1 = (items.length - 1) + b := by omega
      rw [h1, h2, Nat.add_div_right _ (by omega)]
  unfold chunked
  rw [hlen, List.range'_succ, List.map_cons, List.drop_zero]
  congr 1
  rw [map_range'_shift]
  apply List.map_congr_left
  intro i _
  rw [List.drop_drop, Nat.add_comm]

lemma chunked_flatten (b : Nat) (hb : 1 ≤ b) (items : List α) :
    (chunked items b).flatten = items := by
  by_cases h : items = []
  · subst h; rw [chunked_nil b hb]; rfl
  · rw [chunked_cons b hb items h, List.flatten_cons,
      chunked_flatten b hb (items.drop b), List.take_append_drop]
termination_by items.length
decreasing_by
  simp only [List.length_drop]
  have : 1 ≤ items.length := List.length_pos.mpr h
  omega

lemma chunked_mem_length_le (b : Nat) (hb : 1 ≤ b) (items : List α) :
    ∀ c ∈ chunked items b, c.length ≤ b := by
  by_cases h : items = []
  · subst h; rw [chunked_nil b hb]; intro c hc; cases hc
  · rw [chunked_cons b hb items h]
    intro c hc
    rcases List.mem_cons.mp hc with hc | hc
    · subst hc
      simp [List.length_take]
    · exact chunked_mem_length_le b hb (items.drop b) c hc
termination_by items.length
decreasing_by
  simp only [List.length_drop]
  have : 1 ≤ items.length := List.length_pos.mpr h
  omega

lemma chunked_length (b : Nat) (items : List α) :
    (chunked items b).length = (items.length + b - 1) / b := by
  simp [chunked, pyRangeLen]

lemma chunked_ne_nil (b : Nat) (hb : 1 ≤ b) (items : List α) :
    ∀ c ∈ chunked items b, c ≠ [] := by
  by_cases h : items = []
  · subst h; rw [chunked_nil b hb]; intro c hc; cases hc
  · rw [chunked_cons b hb items h]
    intro c hc
    rcases List.mem_cons.mp hc with hc | hc
    · subst hc
      cases items with
      | nil => exact absurd rfl h
      | cons a l =>
        cases b with
        | zero => omega
        | succ b => simp
    · exact chunked_ne_nil b hb (items.drop b) c hc
termination_by items.length
decreasing_by
  simp only [List.length_drop]
  have : 1 ≤ items.length := List.length_pos.mpr h
  omega

/-- C1: for every chunk size `b ≥ 1` and every list of `n` tickers,
`_chunked` yields `⌈n/b⌉` chunks, each chunk has size at most `b`, and
the concatenation of the chunks in order equals the original list. -/
theorem chunked_partition_correct (b : Nat) (hb : 1 ≤ b) (items : List α) :
    (chunked items b).length = items.length ⌈/⌉ b ∧
    (∀ c ∈ chunked items b, c.length ≤ b) ∧
    (chunked items b).flatten = items :=
  ⟨by rw [Nat.ceilDiv_eq_add_pred_div]; exact chunked_length b items,
    chunked_mem_length_le b hb items, chunked_flatten b hb items⟩

/-- Witness for C1 at `b = 2` over a three-element list. -/
theorem chunked_partition_correct_witness :
    (chunked [10, 20, 30] 2).length = [10, 20, 30].length ⌈/⌉ 2 ∧
    (∀ c ∈ chunked [10, 20, 30] 2, c.length ≤ 2) ∧
    (chunked [10, 20, 30] 2).flatten = [10, 20, 30] :=
  chunked_partition_correct 2 (by decide) [10, 20, 30]

lemma derivePL_cons (asOf : String) (snap : Snap) (rest : List Snap) :
    derivePL asOf (snap :: rest) =
      match deriveOne asOf snap with
      | some e => e :: derivePL asOf rest
      | Option.none => derivePL asOf rest := by
  cases h : dictGet snap "ticker" with
  | str t => by_cases ht : t = "" <;> simp [derivePL, deriveOne, h, ht]
  | none => simp [derivePL, deriveOne, h]
  | bool b => simp [derivePL, deriveOne, h]
  | num q => simp [derivePL, deriveOne, h]
  | dict fields => simp [derivePL, deriveOne, h]
  | list xs => simp [derivePL, deriveOne, h]

lemma derivePL_eq_filterMap (asOf : String) (snaps : List Snap) :
    derivePL asOf snaps = snaps.filterMap (deriveOne asOf) := by
  induction snaps with
  | nil => rfl
  | cons snap rest ih =>
    rw [derivePL_cons, List.filterMap_cons]
    cases h : deriveOne asOf snap <;> simp [h, ih]

lemma deriveOne_none_iff (asOf : String) (snap : Snap) :
    deriveOne asOf snap = Option.none ↔
      ¬ ∃ t, dictGet snap "ticker" = PyVal.str t ∧ t ≠ "" := by
  cases h : dictGet snap "ticker" with
  | str t =>
    by_cases ht : t = ""
    · subst ht; simp [deriveOne, h]
    · simp [deriveOne, h, ht]
  | none => simp [deriveOne, h]
  | bool b => simp [deriveOne, h]
  | num q => simp [deriveOne, h]
  | dict fields => simp [deriveOne, h]
  | list xs => simp [deriveOne, h]

lemma deriveOne_fields (asOf : String) (snap : Snap) (e : TickerPL)
    (h : deriveOne asOf snap = some e) :
    e.daily_pl = to_float (dictGet snap "todaysChange") ∧
    e.daily_pl_percent = to_float (dictGet snap "todaysChangePerc") ∧
    e.min_close = (match dictGet snap "min" with
      | PyVal.dict m => to_float (dictGet m "c")
      | _ => Option.none) ∧
    e.date = asOf ∧
    ∃ t, dictGet snap "ticker" = PyVal.str t ∧ t ≠ "" ∧ e.ticker = pyUpper t := by
  cases hg : dictGet snap "ticker" with
  | str t =>
    by_cases ht : t = ""
    · simp [deriveOne, hg, ht] at h
    · simp only [deriveOne, hg, ht, if_false, Option.some.injEq] at h
      subst h
      exact ⟨rfl, rfl, rfl, rfl, t, rfl, ht, rfl⟩
  | none => simp [deriveOne, hg] at h
  | bool b => simp [deriveOne, hg] at h
  | num q => simp [deriveOne, hg] at h
  | dict fields => simp [deriveOne, hg] at h
  | list xs => simp [deriveOne, hg] at h

/-- C2: the derivation never raises on an absent or non-numeric
`todaysChange`, `todaysChangePerc` or nested `min.c` field — each
numeric `TickerPL` field is exactly the total best-effort coercion of
the raw field, and that coercion yields `None` for an absent value
(`PyVal.none`), for dictionaries and for lists; a record is skipped
exactly when its `ticker` field is missing, empty or not a string;
and the output is the in-order `filterMap` of the input, so order is
preserved and nothing is deduplicated. -/
theorem derive_total_skip_order (asOf : String) (snaps : List Snap) :
    derivePL asOf snaps = snaps.filterMap (deriveOne asOf) ∧
    (∀ snap : Snap, deriveOne asOf snap = Option.none ↔
      ¬ ∃ t, dictGet snap "ticker" = PyVal.str t ∧ t ≠ "") ∧
    (∀ (snap : Snap) (e : TickerPL), deriveOne asOf snap = some e →
      e.daily_pl = to_float (dictGet snap "todaysChange") ∧
      e.daily_pl_percent = to_float (dictGet snap "todaysChangePerc") ∧
      e.min_close = (match dictGet snap "min" with
        | PyVal.dict m => to_float (dictGet m "c")
        | _ => Option.none)) ∧
    to_float PyVal.none = Option.none ∧
    (∀ fields, to_float (PyVal.dict fields) = Option.none) ∧
    (∀ xs, to_float (PyVal.list xs) = Option.none) :=
  ⟨derivePL_eq_filterMap asOf snaps,
    fun snap => deriveOne_none_iff asOf snap,
    fun snap e h =>
      let hf := deriveOne_fields asOf snap e h
      ⟨hf.1, hf.2.1, hf.2.2.1⟩,
    rfl, fun _ => rfl, fun _ => rfl⟩

/-- C10: `float()` succeeds on Python booleans, so a boolean
`todaysChange` coerces to `1.0` (`True`) or `0.0` (`False`) instead of
`null`. -/
theorem to_float_bool_conversion :
    to_float (PyVal.bool true) = some 1 ∧
    to_float (PyVal.bool false) = some 0 ∧
    (∀ (asOf : String) (snap : Snap) (e : TickerPL) (b : Bool),
      dictGet snap "todaysChange" = PyVal.bool b →
      deriveOne asOf snap = some e →
      e.daily_pl = some (if b then 1 else 0)) :=
  ⟨rfl, rfl, fun asOf snap e b hb h => by
    rw [(deriveOne_fields asOf snap e h).1, hb]
    rfl⟩

lemma pyMax1_pos (z : Int) : 1 ≤ pyMax1 z := by
  unfold pyMax1
  rcases le_total 1 z with h | h
  · rw [max_eq_right h]; omega
  · rw [max_eq_left h]; omega

/-- C6: the Snapshot Fetcher normalizes by trimming, uppercasing and
dropping empties, and when every input ticker is empty or
whitespace-only it returns an empty result having issued no chunk
request at all; the scenario `["AAPL", "msft "]` normalizes to
`["AAPL", "MSFT"]`. -/
theorem fetch_empty_after_normalization (respond : List String → List Snap)
    (apiKey : String) (tickers : List String) (otc : Bool) (bs : Int)
    (hkey : apiKey ≠ "") (hws : ∀ t ∈ tickers, pyStrip t = "") :
    fetchMarketSnapshots respond apiKey tickers otc bs = Except.ok ⟨[], []⟩ ∧
    normalizeTickers ["AAPL", "msft "] = ["AAPL", "MSFT"] := by
  have hn : normalizeTickers tickers = [] := by
    apply List.filterMap_eq_nil_iff.mpr
    intro t ht
    simp [hws t ht]
  refine ⟨?_, by decide⟩
  unfold fetchMarketSnapshots
  rw [if_neg hkey]
  simp [hn]

/-- Witness for C6: a non-empty API key and a list of one empty and
two whitespace-only tickers. -/
theorem fetch_empty_after_normalization_witness :
    fetchMarketSnapshots respondEmpty "key" ["", " ", "\t "] false 500 = Except.ok ⟨[], []⟩ ∧
    normalizeTickers ["AAPL", "msft "] = ["AAPL", "MSFT"] :=
  fetch_empty_after_normalization respondEmpty "key" ["", " ", "\t "] false 500
    (by decide) (by decide)

/-- C9: the integer size parameters are clamped with `max(1, _)`
before use, so for every integer value (zero and negatives included)
the chunk size, the semaphore capacity and the pipeline batch size
are at least one, chunking loses no element, and no chunk is empty
(no empty-step iteration). -/
theorem size_params_clamped (cfg : AppConfig) (tickers : List String)
    (entries : List TickerPL) :
    1 ≤ pyMax1 (AppConfig.ticker_batch_size cfg) ∧
    1 ≤ pyMax1 (AppConfig.snapshot_concurrency cfg) ∧
    1 ≤ pyMax1 (AppConfig.redis_pipeline_size cfg) ∧
    (chunked (normalizeTickers tickers) (pyMax1 (AppConfig.ticker_batch_size cfg))).flatten
      = normalizeTickers tickers ∧
    (∀ c ∈ chunked (normalizeTickers tickers) (pyMax1 (AppConfig.ticker_batch_size cfg)),
      c ≠ []) ∧
    (chunked entries (pyMax1 (AppConfig.redis_pipeline_size cfg))).flatten = entries ∧
    (∀ c ∈ chunked entries (pyMax1 (AppConfig.redis_pipeline_size cfg)), c ≠ []) :=
  ⟨pyMax1_pos _, pyMax1_pos _, pyMax1_pos _,
    chunked_flatten _ (pyMax1_pos _) _,
    chunked_ne_nil _ (pyMax1_pos _) _,
    chunked_flatten _ (pyMax1_pos _) _,
    chunked_ne_nil _ (pyMax1_pos _) _⟩

lemma countP_set_eq (p : α → Bool) :
    ∀ (l : List α) (i : Nat) (x y : α), l[i]? = some y →
      (l.set i x).countP p + (if p y then 1 else 0) =
        l.countP p + (if p x then 1 else 0) := by
  intro l
  induction l with
  | nil => intro i x y h; cases h
  | cons a rest ih =>
    intro i x y h
    cases i with
    | zero =>
      simp only [List.getElem?_cons_zero, Option.some.injEq] at h
      subst h
      simp only [List.set_cons_zero, List.countP_cons]
      omega
    | succ i =>
      simp only [List.getElem?_cons_succ] at h
      simp only [List.set_cons_succ, List.countP_cons]
      have := ih i x y h
      omega

lemma semStep_inflight_le (cap : Nat) (ts ts' : List ChunkPhase)
    (h : SemStep cap ts ts') (hle : inflightCount ts ≤ cap) :
    inflightCount ts' ≤ cap := by
  cases h with
  | acquire i hi hcap =>
    have hc := countP_set_eq (fun t => t == ChunkPhase.inflight) ts i
      ChunkPhase.inflight ChunkPhase.pending hi
    dsimp only at hc
    rw [show (ChunkPhase.pending == ChunkPhase.inflight) = false from rfl,
      show (ChunkPhase.inflight == ChunkPhase.inflight) = true from rfl] at hc
    simp only [if_true, if_false, Bool.false_eq_true] at hc
    simp only [inflightCount] at hcap hc ⊢
    omega
  | release i hi =>
    have hc := countP_set_eq (fun t => t == ChunkPhase.inflight) ts i
      ChunkPhase.done ChunkPhase.inflight hi
    dsimp only at hc
    rw [show (ChunkPhase.done == ChunkPhase.inflight) = false from rfl,
      show (ChunkPhase.inflight == ChunkPhase.inflight) = true from rfl] at hc
    simp only [if_true, if_false, Bool.false_eq_true] at hc
    simp only [inflightCount] at hle hc ⊢
    omega

lemma semReachable_inflight_le (cap n : Nat) (ts : List ChunkPhase)
    (h : SemReachable cap n ts) : inflightCount ts ≤ cap := by
  induction h with
  | refl =>
    have : inflightCount (List.replicate n ChunkPhase.pending) = 0 := by
      apply List.countP_eq_zero.mpr
      intro a ha
      rw [List.eq_of_mem_replicate ha]
      decide
    omega
  | tail hsteps hstep ih => exact semStep_inflight_le _ _ _ hstep ih

/-- C8: with the semaphore of capacity `max(1, concurrency)` wrapped
around each chunk request, in every reachable interleaving of the
chunk tasks the number of requests simultaneously in flight never
exceeds the configured capacity, whatever the number of chunks;
a pending task can only proceed while a slot is free. -/
theorem semaphore_inflight_bound (cfg : AppConfig) (tickers : List String)
    (ts : List ChunkPhase)
    (h : SemReachable (pyMax1 (AppConfig.snapshot_concurrency cfg))
      ((chunked (normalizeTickers tickers)
        (pyMax1 (AppConfig.ticker_batch_size cfg))).length) ts) :
    inflightCount ts ≤ pyMax1 (AppConfig.snapshot_concurrency cfg) :=
  semReachable_inflight_le _ _ ts h

/-- Witness for C8: three one-ticker chunks, two permits, after one
acquire step. -/
theorem semaphore_inflight_bound_witness :
    inflightCount ((List.replicate 3 ChunkPhase.pending).set 0 ChunkPhase.inflight)
      ≤ pyMax1 (AppConfig.snapshot_concurrency cfgSem) :=
  semaphore_inflight_bound cfgSem ["AAPL", "MSFT", "NVDA"] _
    (Relation.ReflTransGen.single
      (SemStep.acquire (List.replicate 3 ChunkPhase.pending) 0 (by decide) (by decide)))

lemma foldl_append_of_step (f : List β → α → List β) (g : α → List β)
    (hf : ∀ acc x, f acc x = acc ++ g x) :
    ∀ (l : List α) (acc : List β), l.foldl f acc = acc ++ l.flatMap g := by
  intro l
  induction l with
  | nil => intro acc; simp
  | cons x rest ih =>
    intro acc
    rw [List.foldl_cons, hf, List.flatMap_cons, ih, List.append_assoc]

lemma batchCommands_eq_flatMap (cfg : AppConfig) (batch : List TickerPL) :
    batchCommands cfg batch = batch.flatMap (entryCmds cfg) := by
  unfold batchCommands
  rw [foldl_append_of_step _ (entryCmds cfg) ?step batch []]
  · rw [List.nil_append]
  case step =>
    intro acc e
    dsimp only
    cases h : AppConfig.redis_ttl_seconds cfg <;> simp [entryCmds, h]

lemma batchCommands_length (cfg : AppConfig) (batch : List TickerPL) :
    (batchCommands cfg batch).length =
      batch.length * (match AppConfig.redis_ttl_seconds cfg with
        | some _ => 2
        | Option.none => 1) := by
  rw [batchCommands_eq_flatMap]
  induction batch with
  | nil => simp
  | cons e rest ih =>
    rw [List.flatMap_cons, List.length_append, ih]
    cases h : AppConfig.redis_ttl_seconds cfg <;> simp [entryCmds, h] <;> ring

/-- C5: with the endpoint and credential set and a non-empty entry
list, the publisher issues one pipelined request per contiguous batch
of at most `pipeline_batch_size` entries (`⌈n/b⌉` of them, losing no
entry); each request's command list holds, per entry in order, a
`SET` at exactly `{key_prefix}:{TICKER}` carrying the serialized
record followed by an `EXPIRE` for that key exactly when
`ttl_seconds` is configured; command counts are `2` or `1` per entry
accordingly.  The witness replays the scenario `pipeline_batch_size
= 2`, three entries, a TTL: two requests with command counts 4 and
2. -/
theorem push_pipeline_layout (cfg : AppConfig) (entries : List TickerPL)
    (hurl : strFalsy (AppConfig.redis_url cfg) = false)
    (htok : strFalsy (AppConfig.redis_token cfg) = false)
    (hne : entries ≠ []) :
    pushDailyPLRequests cfg entries =
      (chunked entries (pyMax1 (AppConfig.redis_pipeline_size cfg))).map
        (fun batch => batch.flatMap (entryCmds cfg)) ∧
    (pushDailyPLRequests cfg entries).length =
      entries.length ⌈/⌉ pyMax1 (AppConfig.redis_pipeline_size cfg) ∧
    (chunked entries (pyMax1 (AppConfig.redis_pipeline_size cfg))).flatten = entries ∧
    (∀ batch ∈ chunked entries (pyMax1 (AppConfig.redis_pipeline_size cfg)),
      batch.length ≤ pyMax1 (AppConfig.redis_pipeline_size cfg)) ∧
    (∀ e : TickerPL, entryCmds cfg e =
      ["SET", AppConfig.redis_key_prefix cfg ++ ":" ++ e.ticker, serializeEntry e] ::
        (match AppConfig.redis_ttl_seconds cfg with
         | some ttl =>
           [["EXPIRE", AppConfig.redis_key_prefix cfg ++ ":" ++ e.ticker, toString ttl]]
         | Option.none => [])) ∧
    (∀ batch : List TickerPL, (batchCommands cfg batch).length =
      batch.length * (match AppConfig.redis_ttl_seconds cfg with
        | some _ => 2
        | Option.none => 1)) := by
  have hreq : pushDailyPLRequests cfg entries =
      (chunked entries (pyMax1 (AppConfig.redis_pipeline_size cfg))).map
        (batchCommands cfg) := by
    unfold pushDailyPLRequests
    rw [hurl, htok]
    simp [hne]
  refine ⟨?_, ?_, ?_, ?_, ?_, ?_⟩
  · rw [hreq]
    exact List.map_congr_left (fun batch _ => batchCommands_eq_flatMap cfg batch)
  · rw [hreq, List.length_map, Nat.ceilDiv_eq_add_pred_div]
    exact chunked_length _ _
  · exact chunked_flatten _ (pyMax1_pos _) _
  · exact chunked_mem_length_le _ (pyMax1_pos _) _
  · intro e; rfl
  · intro batch; exact batchCommands_length cfg batch

/-- Witness for C5: `cfgW` has `redis_pipeline_size = 2` and
`redis_ttl_seconds = 60`; the three entries of `entsW` produce two
pipeline requests with command counts 4 and 2. -/
theorem push_pipeline_layout_witness :
    ((pushDailyPLRequests cfgW entsW).map List.length = [4, 2]) ∧
    (pushDailyPLRequests cfgW entsW =
      (chunked entsW (pyMax1 (AppConfig.redis_pipeline_size cfgW))).map
        (fun batch => batch.flatMap (entryCmds cfgW)) ∧
    (pushDailyPLRequests cfgW entsW).length =
      entsW.length ⌈/⌉ pyMax1 (AppConfig.redis_pipeline_size cfgW) ∧
    (chunked entsW (pyMax1 (AppConfig.redis_pipeline_size cfgW))).flatten = entsW ∧
    (∀ batch ∈ chunked entsW (pyMax1 (AppConfig.redis_pipeline_size cfgW)),
      batch.length ≤ pyMax1 (AppConfig.redis_pipeline_size cfgW)) ∧
    (∀ e : TickerPL, entryCmds cfgW e =
      ["SET", AppConfig.redis_key_prefix cfgW ++ ":" ++ e.ticker, serializeEntry e] ::
        (match AppConfig.redis_ttl_seconds cfgW with
         | some ttl =>
           [["EXPIRE", AppConfig.redis_key_prefix cfgW ++ ":" ++ e.ticker, toString ttl]]
         | Option.none => [])) ∧
    (∀ batch : List TickerPL, (batchCommands cfgW batch).length =
      batch.length * (match AppConfig.redis_ttl_seconds cfgW with
        | some _ => 2
        | Option.none => 1))) :=
  ⟨rfl, push_pipeline_layout cfgW entsW rfl rfl (by decide)⟩

lemma applyCmds_append (st : CacheState) (l1 l2 : List (List String)) :
    applyCmds st (l1 ++ l2) = applyCmds (applyCmds st l1) l2 :=
  List.foldl_append applyCmd st l1 l2

lemma applyCmds_entryCmds (cfg : AppConfig) (st : CacheState) (e : TickerPL) :
    applyCmds st (entryCmds cfg e) = setEntry cfg st e := by
  cases h : AppConfig.redis_ttl_seconds cfg with
  | none =>
    funext q
    simp only [entryCmds, h, applyCmds, List.foldl_cons, List.foldl_nil]
    by_cases hq : q = entryKey cfg e <;> simp [applyCmd, setEntry, h, hq]
  | some ttl =>
    funext q
    simp only [entryCmds, h, applyCmds, List.foldl_cons, List.foldl_nil]
    by_cases hq : q = entryKey cfg e <;> simp [applyCmd, setEntry, h, hq]

lemma foldl_applyCmds_flatten (st : CacheState) (reqs : List (List (List String))) :
    reqs.foldl applyCmds st = applyCmds st reqs.flatten := by
  induction reqs generalizing st with
  | nil => rfl
  | cons req rest ih =>
    rw [List.foldl_cons, List.flatten_cons, applyCmds_append, ih]

lemma applyCmds_flatMap_entry (cfg : AppConfig) (entries : List TickerPL)
    (st : CacheState) :
    applyCmds st (entries.flatMap (entryCmds cfg)) =
      entries.foldl (setEntry cfg) st := by
  induction entries generalizing st with
  | nil => rfl
  | cons e rest ih =>
    rw [List.flatMap_cons, applyCmds_append, applyCmds_entryCmds, List.foldl_cons, ih]

lemma foldl_applyCmds_batches (cfg : AppConfig) (chunks : List (List TickerPL))
    (st : CacheState) :
    (chunks.map (batchCommands cfg)).foldl applyCmds st =
      chunks.flatten.foldl (setEntry cfg) st := by
  induction chunks generalizing st with
  | nil => rfl
  | cons c rest ih =>
    rw [List.map_cons, List.foldl_cons, List.flatten_cons, List.foldl_append,
      batchCommands_eq_flatMap, applyCmds_flatMap_entry, ih]

lemma publishEffect_char (cfg : AppConfig) (entries : List TickerPL) (st : CacheState) :
    publishEffect cfg entries st =
      if strFalsy (AppConfig.redis_url cfg) || strFalsy (AppConfig.redis_token cfg) then st
      else if entries = [] then st
      else entries.foldl (setEntry cfg) st := by
  unfold publishEffect pushDailyPLRequests
  by_cases h1 : strFalsy (AppConfig.redis_url cfg) || strFalsy (AppConfig.redis_token cfg)
  · simp [h1, applyCmds]
  · by_cases h2 : entries = []
    · simp [h1, h2, applyCmds]
    · simp only [h1, h2, if_false, Bool.false_eq_true, if_neg]
      rw [foldl_applyCmds_batches,
        chunked_flatten _ (pyMax1_pos (AppConfig.redis_pipeline_size cfg)) entries]

lemma foldl_setEntry_lookup (cfg : AppConfig) (entries : List TickerPL)
    (st : CacheState) (q : String) :
    (entries.foldl (setEntry cfg) st) q =
      match entries.reverse.find? (fun e => entryKey cfg e == q) with
      | some e => some (serializeEntry e, (AppConfig.redis_ttl_seconds cfg).map toString)
      | Option.none => st q := by
  induction entries generalizing st with
  | nil => rfl
  | cons e rest ih =>
    rw [List.foldl_cons, ih, List.reverse_cons, List.find?_append]
    cases hf : rest.reverse.find? (fun e2 => entryKey cfg e2 == q) with
    | some e2 => rw [Option.or_some]
    | none =>
      rw [Option.none_or, List.find?_singleton]
      by_cases hq : entryKey cfg e = q
      · rw [if_pos (by simpa using hq)]
        simp [setEntry, hq]
      · rw [if_neg (by simpa using hq)]
        simp only [setEntry]
        rw [if_neg (fun hc => hq hc.symm)]

lemma foldl_setEntry_idem (cfg : AppConfig) (entries : List TickerPL) (st : CacheState) :
    entries.foldl (setEntry cfg) (entries.foldl (setEntry cfg) st) =
      entries.foldl (setEntry cfg) st := by
  funext q
  rw [foldl_setEntry_lookup, foldl_setEntry_lookup]
  cases hf : entries.reverse.find? (fun e => entryKey cfg e == q) with
  | some e => rfl
  | none => rfl

/-- C7: publishing the same entries twice with the same TTL
configuration leaves the cache in the same final state as publishing
them once — each `SET` overwrites the key's value (and each `EXPIRE`
re-attaches the same expiry) rather than accumulating. -/
theorem publish_idempotent (cfg : AppConfig) (entries : List TickerPL)
    (st : CacheState) :
    publishEffect cfg entries (publishEffect cfg entries st) =
      publishEffect cfg entries st := by
  by_cases h1 : strFalsy (AppConfig.redis_url cfg) || strFalsy (AppConfig.redis_token cfg)
  · simp [publishEffect_char, h1]
  · by_cases h2 : entries = []
    · simp [publishEffect_char, h1, h2]
    · simp [publishEffect_char, h1, h2, foldl_setEntry_idem]

lemma char_toUpper_idem (c : Char) : c.toUpper.toUpper = c.toUpper := by
  unfold Char.toUpper
  by_cases h : 97 ≤ c.toNat ∧ c.toNat ≤ 122
  · simp only [h, if_true, ge_iff_le]
    obtain ⟨h1, h2⟩ := h
    interval_cases hc : c.toNat <;> simp_all
  · simp only [ge_iff_le]
    rw [if_neg h, if_neg h]

lemma pyUpper_idem (s : String) : pyUpper (pyUpper s) = pyUpper s := by
  unfold pyUpper
  apply String.ext
  show (s.data.map Char.toUpper).map Char.toUpper = s.data.map Char.toUpper
  rw [List.map_map]
  exact List.map_congr_left (fun c _ => char_toUpper_idem c)

lemma pyUpper_ne_empty (s : String) (h : s ≠ "") : pyUpper s ≠ "" := by
  intro hc
  apply h
  have hdata : s.data.map Char.toUpper = [] := congrArg String.data hc
  exact String.ext (List.map_eq_nil_iff.mp hdata)

lemma derivePL_mem_props (asOf : String) (snaps : List Snap) :
    ∀ e ∈ derivePL asOf snaps,
      e.date = asOf ∧ e.ticker ≠ "" ∧ pyUpper e.ticker = e.ticker := by
  intro e he
  rw [derivePL_eq_filterMap] at he
  obtain ⟨snap, hsnap, hsome⟩ := List.mem_filterMap.mp he
  obtain ⟨_, _, _, hdate, t, _, ht, hticker⟩ := deriveOne_fields asOf snap e hsome
  refine ⟨hdate, ?_, ?_⟩
  · rw [hticker]; exact pyUpper_ne_empty t ht
  · rw [hticker]; exact pyUpper_idem t

lemma collect_ok_shape (env : RunEnv) (cfg : AppConfig) (entries : List TickerPL)
    (h : collectDailyPL env cfg = Except.ok entries) :
    ∃ snaps, entries = derivePL (runAsOf env cfg) snaps := by
  unfold collectDailyPL at h
  unfold runAsOf
  split at h
  next heq => cases h
  next tz warned heq =>
    rw [heq]
    split at h
    next heq2 => cases h
    next discovered heq2 =>
      split at h
      · dsimp only at h
        split at h
        next heq3 => cases h
        next out heq3 =>
          cases h
          exact ⟨out.results, rfl⟩
      · dsimp only at h
        split at h
        next heq3 => cases h
        next out heq3 =>
          cases h
          exact ⟨out.results, rfl⟩

/-- C4: every `TickerPL` emitted by one orchestration pass carries
the identical date string — the `strftime`-formatted calendar date
observed in the resolved zone at the start of the run — and a
non-empty ticker that is a fixed point of uppercasing. -/
theorem run_uniform_date_upper_ticker (env : RunEnv) (cfg : AppConfig)
    (entries : List TickerPL) (h : collectDailyPL env cfg = Except.ok entries) :
    (∀ e ∈ entries, e.date = runAsOf env cfg) ∧
    (∀ e1 ∈ entries, ∀ e2 ∈ entries, e1.date = e2.date) ∧
    (∀ e ∈ entries, e.ticker ≠ "" ∧ pyUpper e.ticker = e.ticker) := by
  obtain ⟨snaps, hs⟩ := collect_ok_shape env cfg entries h
  subst hs
  refine ⟨?_, ?_, ?_⟩
  · intro e he
    exact (derivePL_mem_props _ snaps e he).1
  · intro e1 he1 e2 he2
    rw [(derivePL_mem_props _ snaps e1 he1).1, (derivePL_mem_props _ snaps e2 he2).1]
  · intro e he
    exact (derivePL_mem_props _ snaps e he).2

/-- Witness for C4: the concrete environment `envW` discovers two
tickers and answers each snapshot request; the run emits two entries
stamped `2026-01-02`. -/
theorem run_uniform_date_upper_ticker_witness :
    (∀ e ∈ ([⟨"AAPL", some 1, Option.none, Option.none, "2026-01-02"⟩,
        ⟨"MSFT", some 1, Option.none, Option.none, "2026-01-02"⟩] : List TickerPL),
      e.date = runAsOf envW cfgW) ∧
    (∀ e1 ∈ ([⟨"AAPL", some 1, Option.none, Option.none, "2026-01-02"⟩,
        ⟨"MSFT", some 1, Option.none, Option.none, "2026-01-02"⟩] : List TickerPL),
      ∀ e2 ∈ ([⟨"AAPL", some 1, Option.none, Option.none, "2026-01-02"⟩,
        ⟨"MSFT", some 1, Option.none, Option.none, "2026-01-02"⟩] : List TickerPL),
      e1.date = e2.date) ∧
    (∀ e ∈ ([⟨"AAPL", some 1, Option.none, Option.none, "2026-01-02"⟩,
        ⟨"MSFT", some 1, Option.none, Option.none, "2026-01-02"⟩] : List TickerPL),
      e.ticker ≠ "" ∧ pyUpper e.ticker = e.ticker) :=
  run_uniform_date_upper_ticker envW cfgW
    [⟨"AAPL", some 1, Option.none, Option.none, "2026-01-02"⟩,
      ⟨"MSFT", some 1, Option.none, Option.none, "2026-01-02"⟩] (by rfl)

/-- C3 counterexample: the run is NOT immune to every invalid zone
name.  `except ZoneInfoNotFoundError` catches only the not-found
case; a zone name that `ZoneInfo` rejects as invalid (here `".."`,
which raises `ValueError`) aborts the whole run even though the API
key is fine and the default zone is available. -/
theorem timezone_invalid_fails_run :
    AppConfig.api_key cfgBadTz ≠ "" ∧
    "America/New_York" ∈ RunEnv.tzdb envW ∧
    collectDailyPL envW cfgBadTz = Except.error PyErr.valueError :=
  ⟨by decide, by decide, rfl⟩

/-- C3 (amended): for every configured zone name that `ZoneInfo` does
not reject as invalid, the run never fails because the name is
unresolvable: when the name is not in the zone database the date is
computed in `America/New_York`, the warning diagnostic is emitted
(the `true` flag), and the run continues to completion. -/
theorem timezone_fallback_notfound (env : RunEnv) (cfg : AppConfig)
    (hNY : "America/New_York" ∈ env.tzdb)
    (hvalid : zoneInfoInvalidKey (AppConfig.pl_timezone cfg) = false)
    (hkey : AppConfig.api_key cfg ≠ "") :
    (∃ entries, collectDailyPL env cfg = Except.ok entries) ∧
    (AppConfig.pl_timezone cfg ∉ env.tzdb →
      resolveTz env.tzdb (AppConfig.pl_timezone cfg) =
        Except.ok ("America/New_York", true)) := by
  have hNYvalid : zoneInfoInvalidKey "America/New_York" = false := rfl
  have hrz : ∃ z w, resolveTz env.tzdb (AppConfig.pl_timezone cfg) = Except.ok (z, w) := by
    unfold resolveTz zoneInfo
    by_cases hmem : AppConfig.pl_timezone cfg ∈ env.tzdb
    · simp [hvalid, hmem]
    · simp only [hvalid, hmem, hNYvalid, hNY, Bool.false_eq_true, if_false, if_neg,
        ite_true, ite_false]
      simp [hNY]
      exact ⟨"America/New_York", Or.inr rfl⟩
  obtain ⟨z, w, hz⟩ := hrz
  constructor
  · unfold collectDailyPL
    rw [hz]
    dsimp only
    unfold fetch_all_active_stock_tickers
    rw [if_neg hkey]
    dsimp only
    unfold fetchMarketSnapshots
    rw [if_neg hkey]
    by_cases hts : normalizeTickers
        (match AppConfig.ticker_limit cfg with
         | some l => (discoverTickers env.pages).take l
         | Option.none => discoverTickers env.pages) = []
    · cases hl : AppConfig.ticker_limit cfg <;>
        rw [hl] at hts <;> simp [hl, hts]
    · cases hl : AppConfig.ticker_limit cfg <;>
        rw [hl] at hts <;> simp [hl, hts]
  · intro hmem
    unfold resolveTz zoneInfo
    simp [hvalid, hmem, hNYvalid, hNY]
    rfl

/-- Witness for C3 (amended): `cfgNoTz` configures the well-formed
but unresolvable zone `
"Mars/Olympus"`; the run succeeds and the fallback zone with the
diagnostic flag is used. -/
theorem timezone_fallback_notfound_witness :
    (∃ entries, collectDailyPL envW cfgNoTz = Except.ok entries) ∧
    (AppConfig.pl_timezone cfgNoTz ∉ RunEnv.tzdb envW →
      resolveTz (RunEnv.tzdb envW) (AppConfig.pl_timezone cfgNoTz) =
        Except.ok ("America/New_York", true)) :=
  timezone_fallback_notfound envW cfgNoTz (by decide) (by decide) (by decide)
